import Mathlib

/-!
Shallow embedding of the adaptive benchmark orchestration core of
`src/local_agents/week_01_raw_llm_api/hello_llm.py`.

Latencies (Python floats) are modelled as rationals; integer timeouts as `Int`.
The HTTP transport is modelled by an event oracle: each dispatched request is
given the event that the transport layer produced (a response with a status
code and body, a timeout exception, or another exception carrying its Python
class name and message), together with the wall-clock time that elapsed.
-/

namespace HelloLLM

/-- The configured target model, `MODEL = "qwen3:latest"` in the source. -/
def MODEL : String := "qwen3:latest"

/-- Python `int(x)` truncates toward zero: floor for nonnegative arguments,
ceiling for negative ones. -/
def pyInt (q : ℚ) : ℤ := if 0 ≤ q then ⌊q⌋ else ⌈q⌉

/-- The body of an HTTP response, as seen by `response.json()` and the
subsequent `result.get("response", "")`:
* `json r` — the body parses to a JSON object whose `"response"` field is `r`
  (absent field modelled as `none`, `.get` then yields `""`);
* `invalid msg` — `response.json()` raises `JSONDecodeError` (str `msg`);
* `nonDict msg` — the body parses to a non-object JSON value, so
  `result.get` raises `AttributeError` (str `msg`). -/
inductive Body where
  | json (responseField : Option String)
  | invalid (msg : String)
  | nonDict (msg : String)
deriving DecidableEq, Repr

/-- What the transport layer did for one `POST /api/generate` call:
* `ok status httpErrMsg body` — a response arrived with this status code and
  body (`httpErrMsg` is the str of the `HTTPError` that
  `raise_for_status()` raises when `status ≥ 400`);
* `timeoutExc` — the client raised its timeout exception
  (`requests.exceptions.Timeout` resp. `httpx.TimeoutException`);
* `exc name msg` — the call raised some other exception whose Python class
  name is `name` and whose str is `msg`. -/
inductive HttpEvent where
  | ok (status : Nat) (httpErrMsg : String) (body : Body)
  | timeoutExc
  | exc (name : String) (msg : String)
deriving DecidableEq, Repr

/-- The result dict built by the request functions: keys `prompt`, `response`,
`latency_ms`, `success`, `method`, and the optional `error_type`. -/
structure Outcome where
  prompt : String
  response : String
  latency_ms : ℚ
  success : Bool
  method : String
  error_type : Option String
deriving DecidableEq, Repr

/-- State of `AdaptiveTimeoutManager`; its constructor sets `cold_timeout = 45`,
`warm_timeout = 15`, empty `performance_history`. -/
structure AdaptiveTimeoutManager where
  cold_timeout : ℤ
  warm_timeout : ℤ
  performance_history : List ℚ
deriving DecidableEq, Repr

/-- A fresh `AdaptiveTimeoutManager()`. -/
def initTM : AdaptiveTimeoutManager :=
  { cold_timeout := 45, warm_timeout := 15, performance_history := [] }

/-- Model of `AdaptiveTimeoutManager.get_timeout`: cold-start tier, then the adaptive
tier `max(int(avg_time * 1.5), warm_timeout)` when the history is non-empty,
else the warm tier. -/
def get_timeout (tm : AdaptiveTimeoutManager) (is_first_request : Bool)
    (model_state : String) : ℤ :=
  if model_state == "cold" && is_first_request then
    tm.cold_timeout
  else if !tm.performance_history.isEmpty then
    let avg_time : ℚ :=
      tm.performance_history.sum / tm.performance_history.length
    max (pyInt (avg_time * (3 / 2))) tm.warm_timeout
  else
    tm.warm_timeout

/-- Model of `AdaptiveTimeoutManager.record_success`: append the latency, then drop the
oldest entry (`pop(0)`) when the history has grown beyond 5. -/
def record_success (tm : AdaptiveTimeoutManager) (latency_seconds : ℚ) :
    AdaptiveTimeoutManager :=
  let h := tm.performance_history ++ [latency_seconds]
  { tm with performance_history := if h.length > 5 then h.tail else h }

/-- The history component of `record_success` as a list transformer (append,
then drop the oldest entry when more than 5 remain). -/
def pushLatency (h : List ℚ) (x : ℚ) : List ℚ :=
  let h2 := h ++ [x]
  if h2.length > 5 then h2.tail else h2

/-- State of `ModelStateManager`: the `is_warm` flag plus optional recorded warmup time. -/
structure ModelStateManager where
  is_warm : Bool
  warmup_time : Option ℚ
deriving DecidableEq, Repr

/-- What the `GET /api/ps` probe produced: a response with a status code and
the list of `"name"` fields of the loaded-model entries (a missing field is
`none`), or an exception. -/
inductive ProbeEvent where
  | response (status : Nat) (modelNames : List (Option String))
  | exc (msg : String)
deriving DecidableEq, Repr

/-- Model of `ModelStateManager.check_model_state`: on a 200 response, `is_warm` is set
to whether any loaded model's `"name"` equals `MODEL` and the returned state is
`"warm"` or `"cold"` accordingly; any other status or any exception yields
`"unknown"` with the manager unchanged. -/
def check_model_state (m : ModelStateManager) (ev : ProbeEvent) :
    String × ModelStateManager :=
  match ev with
  | .response status modelNames =>
      if status == 200 then
        let warm := modelNames.any (fun n => n == some MODEL)
        (if warm then "warm" else "cold", { m with is_warm := warm })
      else
        ("unknown", m)
  | .exc _ => ("unknown", m)

/-- Model of `enhanced_sync_request`: issue the POST under the given event and elapsed
wall-clock time (milliseconds), returning the outcome dict together with the
(possibly updated) timeout manager. Mirrors the source's control flow:
`raise_for_status()` first, then `record_success(elapsed / 1000)`, then
`response.json()` and the excerpt `result.get("response", "")[:100] + "..."`;
`requests.exceptions.Timeout` is caught in its own branch and any other
exception in the generic branch with `error_type = type(e).__name__`. -/
def enhanced_sync_request (prompt : String) (timeout : ℤ) (ev : HttpEvent)
    (elapsed_ms : ℚ) (timeout_manager : AdaptiveTimeoutManager) :
    Outcome × AdaptiveTimeoutManager :=
  match ev with
  | .ok status httpErrMsg body =>
      if 400 ≤ status then
        ({ prompt := prompt, response := "Error: " ++ httpErrMsg,
           latency_ms := elapsed_ms, success := false, method := "sync",
           error_type := some "HTTPError" }, timeout_manager)
      else
        let tm := record_success timeout_manager (elapsed_ms / 1000)
        match body with
        | .json responseField =>
            ({ prompt := prompt,
               response := (responseField.getD "").take 100 ++ "...",
               latency_ms := elapsed_ms, success := true, method := "sync",
               error_type := none }, tm)
        | .invalid msg =>
            ({ prompt := prompt, response := "Error: " ++ msg,
               latency_ms := elapsed_ms, success := false, method := "sync",
               error_type := some "JSONDecodeError" }, tm)
        | .nonDict msg =>
            ({ prompt := prompt, response := "Error: " ++ msg,
               latency_ms := elapsed_ms, success := false, method := "sync",
               error_type := some "AttributeError" }, tm)
  | .timeoutExc =>
      ({ prompt := prompt,
         response := "Timeout after " ++ toString timeout ++ "s",
         latency_ms := elapsed_ms, success := false, method := "sync",
         error_type := some "timeout" }, timeout_manager)
  | .exc name msg =>
      ({ prompt := prompt, response := "Error: " ++ msg,
         latency_ms := elapsed_ms, success := false, method := "sync",
         error_type := some name }, timeout_manager)

/-- Model of `enhanced_async_request`: same request shape over `httpx`, but it takes no
timeout manager and records nothing; `httpx.TimeoutException` is caught in its
own branch and any other exception in the generic branch. -/
def enhanced_async_request (prompt : String) (timeout : ℤ) (ev : HttpEvent)
    (elapsed_ms : ℚ) : Outcome :=
  match ev with
  | .ok status httpErrMsg body =>
      if 400 ≤ status then
        { prompt := prompt, response := "Error: " ++ httpErrMsg,
          latency_ms := elapsed_ms, success := false, method := "async",
          error_type := some "HTTPStatusError" }
      else
        match body with
        | .json responseField =>
            { prompt := prompt,
              response := (responseField.getD "").take 100 ++ "...",
              latency_ms := elapsed_ms, success := true, method := "async",
              error_type := none }
        | .invalid msg =>
            { prompt := prompt, response := "Error: " ++ msg,
              latency_ms := elapsed_ms, success := false, method := "async",
              error_type := some "JSONDecodeError" }
        | .nonDict msg =>
            { prompt := prompt, response := "Error: " ++ msg,
              latency_ms := elapsed_ms, success := false, method := "async",
              error_type := some "AttributeError" }
  | .timeoutExc =>
      { prompt := prompt,
        response := "Timeout after " ++ toString timeout ++ "s",
        latency_ms := elapsed_ms, success := false, method := "async",
        error_type := some "timeout" }
  | .exc name msg =>
      { prompt := prompt, response := "Error: " ++ msg,
        latency_ms := elapsed_ms, success := false, method := "async",
        error_type := some name }

/-- One element of the list `asyncio.gather(*tasks, return_exceptions=True)`
returns: either the dict a task returned, or the exception object that
escaped the task. -/
inductive GatherItem where
  | dict (o : Outcome)
  | excObj (name : String)
deriving DecidableEq, Repr

/-- Model of `asyncio.gather(*tasks, return_exceptions=True)` for the concurrent
section of `main`: one task per prompt. Per `asyncio.gather`'s contract the
result list is indexed by task creation order — the order in which responses
complete (encoded in the per-prompt events and latencies of the environment)
does not affect the order of the list. `enhanced_async_request` catches every
`Exception` internally and returns a dict, so every element is a `dict`. -/
def concurrent_gather (prompts : List String) (warm_timeout : ℤ)
    (env : String → HttpEvent) (lat : String → ℚ) : List GatherItem :=
  prompts.map (fun p => .dict (enhanced_async_request p warm_timeout (env p) (lat p)))

/-- The loop over `concurrent_results` in `main`: keep only the results that
are dicts (`isinstance(result, dict)`), overriding `method` with
`"concurrent"`, and append them to `results` in list order. -/
def concurrent_section (results : List Outcome) (prompts : List String)
    (warm_timeout : ℤ) (env : String → HttpEvent) (lat : String → ℚ) :
    List Outcome :=
  results ++ (concurrent_gather prompts warm_timeout env lat).filterMap
    (fun r => match r with
      | .dict o => some { o with method := "concurrent" }
      | .excObj _ => none)

/-- One iteration of the async loop in `main`: consult the timeout manager
with `(False, "warm")`, await `enhanced_async_request`, append the result.
The timeout manager is not threaded through the async request, so it is
returned unchanged. -/
def async_step (tm : AdaptiveTimeoutManager) (results : List Outcome)
    (prompt : String) (ev : HttpEvent) (elapsed_ms : ℚ) :
    AdaptiveTimeoutManager × List Outcome :=
  let timeout := get_timeout tm false "warm"
  (tm, results ++ [enhanced_async_request prompt timeout ev elapsed_ms])

/-- Row of the analysis table of `analyze_enhanced_results`. -/
structure ModeSummary where
  success_rate : ℚ
  avg_latency : ℚ
  optimization : String
deriving DecidableEq, Repr

/-- The `Optimization insight` chain of `analyze_enhanced_results`. -/
def optimizationTag (method : String) (success_rate : ℚ) (avg_latency : ℚ) :
    String :=
  if method == "sync" && success_rate == 100 then "✅ State mgmt working"
  else if method == "async" && avg_latency < 5000 then "✅ Timeouts optimized"
  else if method == "concurrent" && success_rate > 80 then "✅ Parallel efficiency"
  else "⚠️  Needs tuning"

/-- The per-method body of `analyze_enhanced_results`: filter by method; when
the filtered list is empty no row is produced (`if method_results:`);
otherwise `success_rate = len(successful) / len(method_results) * 100` and
`avg_latency = sum(latencies of successful) / len(successful)` when there are
successes, `0` otherwise. -/
def analyzeMode (results : List Outcome) (method : String) :
    Option ModeSummary :=
  let method_results := results.filter (fun r => r.method == method)
  let successful := method_results.filter (fun r => r.success)
  if method_results.isEmpty then none
  else
    let success_rate : ℚ :=
      (successful.length : ℚ) / (method_results.length : ℚ) * 100
    let avg_latency : ℚ :=
      if successful.isEmpty then 0
      else (successful.map (fun r => r.latency_ms)).sum / (successful.length : ℚ)
    some { success_rate := success_rate, avg_latency := avg_latency,
           optimization := optimizationTag method success_rate avg_latency }

/-- The spec's dispatch-error taxonomy. -/
inductive ErrKind where
  | TIMEOUT
  | CONNECTION
  | OTHER
deriving DecidableEq, Repr

/-- Abstraction from the code's `error_type` strings to the spec's taxonomy:
the timeout branch writes the literal `"timeout"`; a transport failure in
`requests`/`httpx` surfaces as an exception of class `ConnectError` or
`ConnectionError`, so those names map to `CONNECTION`; every other exception
class name maps to `OTHER`. -/
def errKindOfName (name : String) : ErrKind :=
  if name == "timeout" then .TIMEOUT
  else if name == "ConnectionError" || name == "ConnectError" then .CONNECTION
  else .OTHER

/-- The spec-level error kind of an outcome, when it carries one. -/
def errKind (o : Outcome) : Option ErrKind :=
  o.error_type.map errKindOfName

/-- Modelled from the spec: the spec's adaptive-tier formula
`max(1.5 × mean(history), warm_floor)` with `warm_floor = 15` seconds, as an
exact rational (no integer truncation). Used to compare the spec's words with
the code's `get_timeout`. -/
def specAdaptiveTimeout (history : List ℚ) : ℚ :=
  max ((3 / 2) * (history.sum / history.length)) 15

/-- The spec abstracts the three per-mode `"✅ ..."` insight strings to
`healthy`; only `"⚠️  Needs tuning"` is not healthy. -/
def isHealthy (tag : String) : Bool :=
  tag != "⚠️  Needs tuning"

/-- The dispatch contract of the spec, per transport event: the outcome's
latency is the wall-clock time that actually elapsed; a timeout yields a
failed outcome of kind `TIMEOUT`; a non-2xx status (`raise_for_status`), a
malformed body, or a non-object body yields a failed outcome of kind `OTHER`;
any other exception yields a failed outcome carrying the exception class name,
of kind `CONNECTION` for a transport failure and `OTHER` otherwise; and a 2xx
response with a well-formed body yields a successful outcome with no error
kind. -/
def dispatchContract (o : Outcome) (ev : HttpEvent) (elapsed_ms : ℚ) : Prop :=
  o.latency_ms = elapsed_ms ∧
  match ev with
  | .ok status _ body =>
      if 400 ≤ status then o.success = false ∧ errKind o = some .OTHER
      else
        match body with
        | .json _ => o.success = true ∧ errKind o = none
        | .invalid _ => o.success = false ∧ errKind o = some .OTHER
        | .nonDict _ => o.success = false ∧ errKind o = some .OTHER
  | .timeoutExc => o.success = false ∧ errKind o = some .TIMEOUT
  | .exc name _ =>
      o.success = false ∧ o.error_type = some name ∧
      (name ≠ "timeout" →
        errKind o = some (if name = "ConnectionError" ∨ name = "ConnectError"
          then ErrKind.CONNECTION else ErrKind.OTHER))

/-- C9: for every latency history, `get_timeout` with `is_first_request = true`
and a cold model state returns exactly the 45-second cold-start timeout: the
cold tier takes priority over the adaptive-history tier. -/
theorem c9_cold_first_timeout (h : List ℚ) :
    get_timeout { initTM with performance_history := h } true "cold" = 45 := by
  simp [get_timeout, initTM]

/-- C1 counterexample: with history `[11]` the code returns
`max(int(11 * 1.5), 15) = 16`, not the claim's exact
`max(1.5 × mean, 15) = 16.5` — the `int(...)` truncation makes the two
differ. -/
theorem c1_counterexample :
    ((get_timeout { initTM with performance_history := [11] } false "warm" : ℤ) : ℚ)
      ≠ specAdaptiveTimeout [11] := by
  norm_num [get_timeout, initTM, pyInt, specAdaptiveTimeout]

/-- C1 (amended): for every non-empty history, a request that is not the cold
first request gets timeout `max(⌊1.5 × mean(history)⌋, 15)` — the adaptive
product is truncated to an integer (Python `int`) before the floor of 15s is
applied. -/
theorem c1_adaptive_timeout (h : List ℚ) (first : Bool) (state : String)
    (hne : h ≠ []) (hcold : ¬(state = "cold" ∧ first = true)) :
    get_timeout { initTM with performance_history := h } first state
      = max (pyInt ((3 / 2) * (h.sum / (h.length : ℚ)))) 15 := by
  have hguard : (state == "cold" && first) = false := by
    cases first
    · simp
    · simp only [Bool.and_true]
      simpa [beq_iff_eq] using fun hs => hcold ⟨hs, rfl⟩
  simp [get_timeout, initTM, hguard, hne, mul_comm]

/-- C1 witness: the amended formula evaluated on the concrete history `[11]`
for a non-first warm request. -/
theorem c1_adaptive_timeout_witness :
    get_timeout { initTM with performance_history := [11] } false "warm"
      = max (pyInt ((3 / 2) * (([11] : List ℚ).sum / (([11] : List ℚ).length : ℚ)))) 15 :=
  c1_adaptive_timeout [11] false "warm" (by simp) (by simp)

/-- C4: the state probe is total (always returns one of the three state
strings) and returns `"warm"` exactly on a 200 response listing the target
model by name, `"cold"` exactly on a 200 response not listing it, and
`"unknown"` exactly on a non-200 status or a transport exception. -/
theorem c4_state_probe (m : ModelStateManager) (ev : ProbeEvent) :
    ((check_model_state m ev).1 = "warm" ∨ (check_model_state m ev).1 = "cold"
        ∨ (check_model_state m ev).1 = "unknown") ∧
    ((check_model_state m ev).1 = "warm"
        ↔ ∃ st ms, ev = .response st ms ∧ st = 200 ∧ some MODEL ∈ ms) ∧
    ((check_model_state m ev).1 = "cold"
        ↔ ∃ st ms, ev = .response st ms ∧ st = 200 ∧ some MODEL ∉ ms) ∧
    ((check_model_state m ev).1 = "unknown"
        ↔ ∀ st ms, ev = .response st ms → st ≠ 200) := by
  cases ev with
  | response st ms =>
      by_cases h200 : st = 200
      · by_cases hin : some MODEL ∈ ms
        · have hany : ms.any (fun n => n == some MODEL) = true := by
            simpa [List.any_eq_true] using hin
          simp [check_model_state, h200, hany, hin]
          exact ⟨200, ms, ⟨rfl, rfl⟩, rfl, hin⟩
        · have hany : ms.any (fun n => n == some MODEL) = false := by
            simp [List.any_eq_false]
            exact fun x hx heq => hin (heq ▸ hx)
          simp [check_model_state, h200, hany, hin]
          exact ⟨200, ms, ⟨rfl, rfl⟩, rfl, hin⟩
      · simp [check_model_state, h200]
  | exc msg => simp [check_model_state]

/-- C10: for every success rate and average latency, the SYNC row is tagged
healthy iff `success_rate == 100`, the ASYNC row iff `avg_latency < 5000`, and
the CONCURRENT row iff `success_rate > 80`; in every other case the row gets
the needs-tuning tag. -/
theorem c10_health_tags (rate avg : ℚ) :
    (isHealthy (optimizationTag "sync" rate avg) = true ↔ rate = 100) ∧
    (isHealthy (optimizationTag "async" rate avg) = true ↔ avg < 5000) ∧
    (isHealthy (optimizationTag "concurrent" rate avg) = true ↔ rate > 80) := by
  refine ⟨?_, ?_, ?_⟩
  · by_cases h : rate = 100 <;> simp [optimizationTag, isHealthy, h]
  · by_cases h : avg < 5000 <;> simp [optimizationTag, isHealthy, h]
  · by_cases h : rate > 80 <;> simp [optimizationTag, isHealthy, h]

/-- C3: both dispatch functions never raise — for every prompt, timeout,
transport event, elapsed time and manager they return an outcome satisfying
the dispatch contract: timeout → failed `TIMEOUT` outcome with the actually
elapsed latency, transport failure → `CONNECTION`, any other failure →
`OTHER`, each with `success = false`. -/
theorem c3_dispatcher_contract (p : String) (t : ℤ) (ev : HttpEvent)
    (el : ℚ) (tm : AdaptiveTimeoutManager) :
    dispatchContract (enhanced_sync_request p t ev el tm).1 ev el ∧
    dispatchContract (enhanced_async_request p t ev el) ev el := by
  cases ev with
  | ok status httpErrMsg body =>
      by_cases h4 : 400 ≤ status
      · simp [dispatchContract, enhanced_sync_request, enhanced_async_request,
          h4, errKind, errKindOfName]
      · cases body <;>
          simp [dispatchContract, enhanced_sync_request, enhanced_async_request,
            h4, errKind, errKindOfName]
  | timeoutExc =>
      simp [dispatchContract, enhanced_sync_request, enhanced_async_request,
        errKind, errKindOfName]
  | exc name msg =>
      refine ⟨⟨rfl, rfl, rfl, fun hne => ?_⟩, ⟨rfl, rfl, rfl, fun hne => ?_⟩⟩ <;>
        simp [enhanced_sync_request, enhanced_async_request, errKind,
          errKindOfName, hne]

/-- C3 witness: the contract evaluated for a concrete generic exception
(`ValueError`), whose outcome is a failure of kind `OTHER`. -/
theorem c3_dispatcher_contract_witness :
    dispatchContract
      (enhanced_sync_request "Say hello" 15 (.exc "ValueError" "boom") 120 initTM).1
      (.exc "ValueError" "boom") 120 ∧
    errKind (enhanced_sync_request "Say hello" 15 (.exc "ValueError" "boom") 120 initTM).1
      = some ErrKind.OTHER := by
  have h := c3_dispatcher_contract "Say hello" 15 (.exc "ValueError" "boom") 120 initTM
  refine ⟨h.1, ?_⟩
  simpa using h.1.2.2.2 (by decide)

/-- C6: evaluation at the failing input — a 200 response whose body fails JSON
parsing. The code calls `record_success` before `response.json()`, so the
outcome is a failure (`JSONDecodeError`, kind `OTHER`) and yet the latency
(250ms = 1/4 s) has entered the previously empty history, contradicting the
claim that an unsuccessful request leaves the history exactly as it was. -/
theorem c6_failed_parse_mutates_history :
    (enhanced_sync_request "Say hello" 15 (.ok 200 "x" (.invalid "Expecting value")) 250 initTM).1.success
        = false ∧
    errKind (enhanced_sync_request "Say hello" 15 (.ok 200 "x" (.invalid "Expecting value")) 250 initTM).1
        = some ErrKind.OTHER ∧
    (enhanced_sync_request "Say hello" 15 (.ok 200 "x" (.invalid "Expecting value")) 250 initTM).2.performance_history
        = [1 / 4] ∧
    initTM.performance_history = [] := by
  refine ⟨rfl, rfl, ?_, rfl⟩
  norm_num [enhanced_sync_request, record_success, initTM]

/-- C5 counterexample: a successful ASYNC dispatch (success = true) leaves the
latency history empty — `record_success` is not invoked, although invoking it
with the elapsed 100ms would have produced the history `[1/10]`. -/
theorem c5_counterexample :
    ((async_step initTM [] "Say hello" (.ok 200 "x" (.json (some "Hello"))) 100).2.map
        (fun o => o.success)) = [true] ∧
    (async_step initTM [] "Say hello" (.ok 200 "x" (.json (some "Hello"))) 100).1.performance_history
        = [] ∧
    (record_success initTM (100 / 1000)).performance_history = [1 / 10] := by
  refine ⟨rfl, rfl, ?_⟩
  norm_num [record_success, initTM]

/-- C5 (amended): only the SYNC dispatcher feeds latency back into the
timeout policy — a successful SYNC request (2xx status, well-formed body)
returns the manager updated by `record_success` with the elapsed seconds,
while an ASYNC (and hence CONCURRENT, which reuses the same request function
and never receives the manager) dispatch step leaves the manager unchanged
whatever its outcome. -/
theorem c5_only_sync_records (p : String) (t : ℤ) (st : Nat) (em : String)
    (rf : Option String) (el : ℚ) (tm : AdaptiveTimeoutManager)
    (h2xx : st < 400) :
    ((enhanced_sync_request p t (.ok st em (.json rf)) el tm).1.success = true ∧
      (enhanced_sync_request p t (.ok st em (.json rf)) el tm).2
        = record_success tm (el / 1000)) ∧
    ∀ (results : List Outcome) (prompt : String) (ev : HttpEvent) (el2 : ℚ),
      (async_step tm results prompt ev el2).1 = tm := by
  refine ⟨?_, fun results prompt ev el2 => rfl⟩
  have hlt : ¬(400 ≤ st) := by omega
  simp [enhanced_sync_request, hlt]

/-- C5 witness: the amended statement applied to a concrete successful SYNC
request at 100ms against a fresh manager. -/
theorem c5_only_sync_records_witness :
    (enhanced_sync_request "Say hello" 15 (.ok 200 "x" (.json (some "Hi"))) 100 initTM).2
      = record_success initTM (100 / 1000) :=
  (c5_only_sync_records "Say hello" 15 200 "x" (some "Hi") 100 initTM (by decide)).1.2

/-- Every branch of `enhanced_async_request` echoes the prompt it was given
into the outcome's `prompt` field. -/
theorem enhanced_async_request_prompt (p : String) (t : ℤ) (ev : HttpEvent)
    (el : ℚ) : (enhanced_async_request p t ev el).prompt = p := by
  cases ev with
  | ok status httpErrMsg body =>
      by_cases h4 : 400 ≤ status
      · simp [enhanced_async_request, h4]
      · cases body <;> simp [enhanced_async_request, h4]
  | timeoutExc => rfl
  | exc name msg => rfl

/-- C2: the concurrent section appends exactly one outcome per prompt — the
gathered list is the per-prompt outcome list in task-creation order (the
request function catches every exception, so the `isinstance(result, dict)`
filter drops nothing) — hence the result grows by exactly `prompts.length`
entries whose `prompt` fields read back the original prompt list in order,
for every environment (i.e. whatever order responses complete in). -/
theorem c2_concurrent_order (results : List Outcome) (prompts : List String)
    (wt : ℤ) (env : String → HttpEvent) (lat : String → ℚ) :
    concurrent_section results prompts wt env lat
        = results ++ prompts.map
            (fun p => { enhanced_async_request p wt (env p) (lat p) with
                          method := "concurrent" }) ∧
    (concurrent_section results prompts wt env lat).length
        = results.length + prompts.length ∧
    ((concurrent_section results prompts wt env lat).drop results.length).map
        (fun o => o.prompt) = prompts := by
  have hmain : concurrent_section results prompts wt env lat
      = results ++ prompts.map
          (fun p => { enhanced_async_request p wt (env p) (lat p) with
                        method := "concurrent" }) := by
    unfold concurrent_section
    congr 1
    induction prompts with
    | nil => rfl
    | cons p ps ih =>
        simpa [concurrent_gather, List.filterMap_cons] using ih
  refine ⟨hmain, ?_, ?_⟩
  · simp [hmain]
  · rw [hmain, List.drop_left, List.map_map]
    simp [Function.comp_def, enhanced_async_request_prompt]

/-- Updating via `record_success` changes the history exactly as `pushLatency` does. -/
theorem record_success_history (tm : AdaptiveTimeoutManager) (x : ℚ) :
    (record_success tm x).performance_history
      = pushLatency tm.performance_history x := rfl

/-- Pushing a latency appends it, evicting the oldest entry when the history is
already at (or beyond) capacity 5. -/
theorem pushLatency_eq (h : List ℚ) (x : ℚ) :
    pushLatency h x
      = if 5 ≤ h.length then h.tail ++ [x] else h ++ [x] := by
  rcases h with _ | ⟨a, t⟩
  · simp [pushLatency]
  · by_cases h5 : 5 ≤ t.length + 1
    · have hgt : (a :: t ++ [x]).length > 5 := by
        simp [List.length_append]
        omega
      simp [pushLatency, hgt, h5]
      omega
    · have hgt : ¬((a :: t ++ [x]).length > 5) := by
        simp [List.length_append]
        omega
      simp [pushLatency, hgt, h5]
      omega

/-- Folding `pushLatency` over new latencies from a history within capacity
keeps exactly the last 5 elements of the concatenation. -/
theorem foldl_pushLatency_drop (xs : List ℚ) :
    ∀ h : List ℚ, h.length ≤ 5 →
      xs.foldl pushLatency h = (h ++ xs).drop (h.length + xs.length - 5) := by
  induction xs with
  | nil =>
      intro h hl
      simp [Nat.sub_eq_zero_of_le hl]
  | cons x xs ih =>
      intro h hl
      rw [List.foldl_cons, pushLatency_eq]
      by_cases h5 : 5 ≤ h.length
      · have hlen5 : h.length = 5 := le_antisymm hl h5
        rcases h with _ | ⟨a, t⟩
        · simp at hlen5
        · have ht : t.length = 4 := by simpa using hlen5
          rw [if_pos h5, List.tail_cons, ih (t ++ [x]) (by simp [ht])]
          have h1 : (t ++ [x]).length + xs.length - 5 = xs.length := by
            simp [ht]
          have h2 : (a :: t).length + (x :: xs).length - 5 = xs.length + 1 := by
            simp [ht]
          rw [h1, h2]
          simp [List.append_assoc]
      · rw [if_neg h5]
        rw [ih (h ++ [x]) (by simp; omega)]
        have h1 : (h ++ [x]).length + xs.length - 5
            = h.length + (x :: xs).length - 5 := by
          simp
          omega
        rw [h1]
        simp [List.append_assoc]

/-- C7: starting from a fresh manager, after any sequence of
`record_success` calls the history is exactly the at-most-5 most recent
latencies in arrival order (so its length never exceeds 5); and a single
`record_success` against a full history appends the new latency while
evicting exactly the oldest entry. -/
theorem c7_history_capacity (xs : List ℚ) :
    ((xs.foldl record_success initTM).performance_history).length ≤ 5 ∧
    (xs.foldl record_success initTM).performance_history
        = xs.drop (xs.length - 5) ∧
    ∀ (tm : AdaptiveTimeoutManager) (x : ℚ),
      (record_success tm x).performance_history
        = if 5 ≤ tm.performance_history.length
          then tm.performance_history.tail ++ [x]
          else tm.performance_history ++ [x] := by
  have hfold : ∀ (ys : List ℚ) (tm : AdaptiveTimeoutManager),
      (ys.foldl record_success tm).performance_history
        = ys.foldl pushLatency tm.performance_history := by
    intro ys
    induction ys with
    | nil => intro tm; rfl
    | cons y ys ih =>
        intro tm
        rw [List.foldl_cons, List.foldl_cons, ih, record_success_history]
  have hmain : (xs.foldl record_success initTM).performance_history
      = xs.drop (xs.length - 5) := by
    have hinit : initTM.performance_history = [] := rfl
    rw [hfold, hinit, foldl_pushLatency_drop xs [] (by simp)]
    simp
  refine ⟨?_, hmain, fun tm x => ?_⟩
  · rw [hmain]
    simp
    omega
  · rw [record_success_history, pushLatency_eq]

/-- C8: the analysis produces a row for a mode exactly when the mode has at
least one outcome (a mode with zero outcomes is omitted rather than dividing
by zero); when present, its success rate is the number of successful outcomes
over the total times 100, and its average latency is the mean over the
successful outcomes only — 0 when the mode has no successes. -/
theorem c8_summarize (outcomes : List Outcome) (method : String) :
    (analyzeMode outcomes method).isSome
        = !(outcomes.filter (fun r => r.method == method)).isEmpty ∧
    (analyzeMode outcomes method).map (fun s => s.success_rate)
        = (if (outcomes.filter (fun r => r.method == method)).isEmpty then none
           else some
             (((outcomes.filter (fun r => r.method == method)).countP
                  (fun r => r.success) : ℚ)
               / ((outcomes.filter (fun r => r.method == method)).length : ℚ)
               * 100)) ∧
    (analyzeMode outcomes method).map (fun s => s.avg_latency)
        = (if (outcomes.filter (fun r => r.method == method)).isEmpty then none
           else if ((outcomes.filter (fun r => r.method == method)).filter
                      (fun r => r.success)).isEmpty then some 0
           else some
             ((((outcomes.filter (fun r => r.method == method)).filter
                   (fun r => r.success)).map (fun r => r.latency_ms)).sum
               / (((outcomes.filter (fun r => r.method == method)).filter
                     (fun r => r.success)).length : ℚ))) := by
  by_cases hmr : (outcomes.filter (fun r => r.method == method)).isEmpty
  · simp [analyzeMode, hmr]
  · by_cases hs : ((outcomes.filter (fun r => r.method == method)).filter
        (fun r => r.success)).isEmpty
    · simp [analyzeMode, hmr, hs, List.countP_eq_length_filter]
      split <;> rfl
    · simp [analyzeMode, hmr, hs, List.countP_eq_length_filter]
      split <;> rfl

end HelloLLM
